import Mathlib

/-!
# Verification of the smart-recipe core (`db_manager.py`)

Shallow embedding of the recipe CRUD / filter / search core:
`models.py` (entities), `schemas.py` (request schemas and their pydantic
validation), and `RecipeDBManager` in `db_manager.py`.

The relational store is modelled as an explicit state (`DB`): each table is a
list of rows, primary keys are generated from `nextRecipeId` / `nextAssocId`.
Each manager method runs inside one transaction (`async with self.session()`):
on an exception the session closes without commit, so the store observed by the
caller is the pre-operation state; this commit/rollback discipline is modelled
by returning the pre-state alongside the error.
-/

namespace SmartRecipe

/-- Enum `CookingDifficultEnum` from `models.py` / `schemas.py`. -/
inductive CookingDifficultEnum where
  | EASY
  | MEDIUM
  | HARD
deriving DecidableEq, Repr

/-- Table `IngredientsModel`: id (pk), name. -/
structure IngredientsModel where
  id : Nat
  name : String
deriving DecidableEq, Repr

/-- Table `KitchensModel`: id (pk), name. -/
structure KitchensModel where
  id : Nat
  name : String
deriving DecidableEq, Repr

/-- Table `RecipeIngredientsModel`: join row linking one recipe to one ingredient. -/
structure RecipeIngredientsModel where
  id : Nat
  recipe_id : Nat
  ingredient_id : Nat
deriving DecidableEq, Repr

/-- Table `RecipesModel`: id (pk), title, instruction, cooking_time,
cooking_difficulty, kitchen_id.  The derived `search_vector` column is
maintained by the store and never read by the core, so it is omitted. -/
structure RecipesModel where
  id : Nat
  title : String
  instruction : String
  cooking_time : Int
  cooking_difficulty : CookingDifficultEnum
  kitchen_id : Nat
deriving DecidableEq, Repr

/-- The entity store: one list per table plus primary-key generators. -/
structure DB where
  kitchens : List KitchensModel
  ingredients : List IngredientsModel
  recipes : List RecipesModel
  assocs : List RecipeIngredientsModel
  nextRecipeId : Nat
  nextAssocId : Nat
deriving DecidableEq, Repr

/-- Typed failures surfaced by the core: `HTTPException(404, detail)` in
`db_manager.py` is the `notFound` case; a store-side text-search rejection is
the `searchError` case (spec section 7 taxonomy). -/
inductive DBError where
  | notFound (detail : String)
  | searchError (detail : String)
deriving DecidableEq, Repr

/-- The association rows of one recipe (`RecipeIngredientsModel.recipe_id ==
recipe_id` in the store). -/
def assocsOf (db : DB) (rid : Nat) : List RecipeIngredientsModel :=
  db.assocs.filter (fun a => a.recipe_id == rid)

/-- The SQL inner join `recipe_ingredients JOIN ingredients`: each association
row paired with its ingredient; rows whose `ingredient_id` resolves to no
ingredient are dropped, as an inner join does. -/
def joinedRows (db : DB) : List (RecipeIngredientsModel × IngredientsModel) :=
  db.assocs.filterMap (fun a =>
    (db.ingredients.find? (fun i => i.id == a.ingredient_id)).map (fun i => (a, i)))

/-- The joined association rows of recipe `rid` whose ingredient name is in
`inc`: the rows counted by the include subquery of
`filter_recipes_by_ingredients` for the group `recipe_id == rid`. -/
def matchingRows (db : DB) (rid : Nat) (inc : List String) :
    List (RecipeIngredientsModel × IngredientsModel) :=
  (joinedRows db).filter (fun p => p.1.recipe_id == rid && inc.contains p.2.name)

/-- Aggregate `COUNT(recipe_ingredients.ingredient_id)` over the group of recipe `rid`
in the include subquery: the number of joined rows, not of distinct names. -/
def includeCount (db : DB) (rid : Nat) (inc : List String) : Nat :=
  (matchingRows db rid inc).length

/-- The ingredient names of the matching rows of recipe `rid`. -/
def matchedNames (db : DB) (rid : Nat) (inc : List String) : List String :=
  (matchingRows db rid inc).map (fun p => p.2.name)

/-- The (multi)set of ingredient names associated with recipe `rid` through
the join. -/
def assocNames (db : DB) (rid : Nat) : List String :=
  ((joinedRows db).filter (fun p => p.1.recipe_id == rid)).map (fun p => p.2.name)

/-- The exclude subquery: recipe `rid` has some association row joining to an
ingredient whose name is in `exc`. -/
def excludedBy (db : DB) (rid : Nat) (exc : List String) : Bool :=
  (joinedRows db).any (fun p => p.1.recipe_id == rid && exc.contains p.2.name)

/-- Method `RecipeDBManager.filter_recipes_by_ingredients`.  Python truthiness of
`if include:` / `if exclude:` means `None` and the empty list both skip the
corresponding filter.  The include filter keeps a recipe iff its count of
matching joined rows equals `len(include)` (the raw length of the given list);
the exclude filter then removes recipes associated with any excluded name. -/
def filter_recipes_by_ingredients (db : DB)
    (incOpt excOpt : Option (List String)) : List RecipesModel :=
  let afterInclude :=
    match incOpt with
    | some (n :: ns) =>
        db.recipes.filter (fun r => includeCount db r.id (n :: ns) == (n :: ns).length)
    | _ => db.recipes
  match excOpt with
  | some (n :: ns) => afterInclude.filter (fun r => !(excludedBy db r.id (n :: ns)))
  | _ => afterInclude

/-- Schema `CreateRecipeSchema` from `schemas.py`, after pydantic validation. -/
structure CreateRecipeSchema where
  title : String
  instruction : String
  recipe_ingredients : List Nat
  cooking_time : Int
  cooking_difficulty : CookingDifficultEnum
  kitchen_id : Nat
deriving DecidableEq, Repr

/-- The raw create request before pydantic validation: `cooking_time` and
`cooking_difficulty` are the only optional fields of `CreateRecipeSchema`
(`default=0, gt=0` and `default=MEDIUM` respectively). -/
structure CreateRecipeInput where
  title : String
  instruction : String
  recipe_ingredients : List Nat
  cooking_time : Option Int
  cooking_difficulty : Option CookingDifficultEnum
  kitchen_id : Nat
deriving DecidableEq, Repr

/-- A pydantic `ValidationError` (rejected request body). -/
inductive SchemaError where
  | validationError (detail : String)
deriving DecidableEq, Repr

/-- Pydantic validation of `CreateRecipeSchema`: a *supplied* `cooking_time`
is checked against `gt=0`; an *omitted* `cooking_time` takes the declared
`default=0`, and pydantic does not validate defaults (`validate_default` is
off), so the default `0` bypasses the `gt=0` constraint.  An omitted
`cooking_difficulty` takes the default `MEDIUM`. -/
def CreateRecipeSchema.validate (inp : CreateRecipeInput) :
    Except SchemaError CreateRecipeSchema :=
  match inp.cooking_time with
  | some t =>
      if t > 0 then
        .ok { title := inp.title, instruction := inp.instruction,
              recipe_ingredients := inp.recipe_ingredients,
              cooking_time := t,
              cooking_difficulty := inp.cooking_difficulty.getD .MEDIUM,
              kitchen_id := inp.kitchen_id }
      else
        .error (.validationError "Input should be greater than 0")
  | none =>
      .ok { title := inp.title, instruction := inp.instruction,
            recipe_ingredients := inp.recipe_ingredients,
            cooking_time := 0,
            cooking_difficulty := inp.cooking_difficulty.getD .MEDIUM,
            kitchen_id := inp.kitchen_id }

/-- The ingredient-validation loop of `create_recipe`: `sess.get` each
ingredient id in list order, failing on the first missing one with the detail
naming that id. -/
def validateIngredients (db : DB) : List Nat → Except DBError (List Nat)
  | [] => .ok []
  | i :: rest =>
    match db.ingredients.find? (fun g => g.id == i) with
    | none => .error (.notFound ("Ingredient with id=" ++ toString i ++ " not found"))
    | some _ =>
      match validateIngredients db rest with
      | .error e => .error e
      | .ok l => .ok (i :: l)

/-- Fresh association rows for a new recipe, one per validated ingredient id,
with generated primary keys starting at `next`. -/
def mkAssocs (rid : Nat) : Nat → List Nat → List RecipeIngredientsModel
  | _, [] => []
  | next, i :: rest =>
      { id := next, recipe_id := rid, ingredient_id := i } :: mkAssocs rid (next + 1) rest

/-- Method `RecipeDBManager.create_recipe`: check the kitchen by id, validate every
ingredient id in order, then build the recipe with its association rows and
commit them in one transaction.  On any failure nothing was added to the
session, so the store is unchanged. -/
def create_recipe (db : DB) (rc : CreateRecipeSchema) :
    DB × Except DBError RecipesModel :=
  match db.kitchens.find? (fun k => k.id == rc.kitchen_id) with
  | none => (db, .error (.notFound "Kitchen not found"))
  | some kitchen =>
    match validateIngredients db rc.recipe_ingredients with
    | .error e => (db, .error e)
    | .ok ids =>
      let rid := db.nextRecipeId
      let newRecipe : RecipesModel :=
        { id := rid, title := rc.title, instruction := rc.instruction,
          cooking_time := rc.cooking_time,
          cooking_difficulty := rc.cooking_difficulty,
          kitchen_id := kitchen.id }
      let newAssocs := mkAssocs rid db.nextAssocId ids
      ({ db with recipes := db.recipes ++ [newRecipe],
                 assocs := db.assocs ++ newAssocs,
                 nextRecipeId := rid + 1,
                 nextAssocId := db.nextAssocId + newAssocs.length },
       .ok newRecipe)

/-- Method `RecipeDBManager.get_recipe_by_id`: select by primary key, 404 if absent. -/
def get_recipe_by_id (db : DB) (rid : Nat) : Except DBError RecipesModel :=
  match db.recipes.find? (fun r => r.id == rid) with
  | none => .error (.notFound "Recipe not found")
  | some r => .ok r

/-- Method `RecipeDBManager.delete_recipe`: fetch-or-404, then delete the recipe row;
the `cascade="all, delete-orphan"` relationship and the `ondelete="CASCADE"`
foreign key delete every association row referencing it. -/
def delete_recipe (db : DB) (rid : Nat) : DB × Except DBError Unit :=
  match get_recipe_by_id db rid with
  | .error e => (db, .error e)
  | .ok _ =>
      ({ db with recipes := db.recipes.filter (fun r => r.id != rid),
                 assocs := db.assocs.filter (fun a => a.recipe_id != rid) },
       .ok ())

/-- Method `RecipeDBManager.fts_search`: build the text-search statement and execute
it against the store.  Modelled from the spec: the store's language-aware
text-search predicate itself is external (out of scope per spec section 1),
so it is taken as a parameter `storeSearch`; a malformed query is its
`searchError` outcome (spec section 4.2 / 7).  The method has no handler
around the execute, so the store's outcome is returned unchanged. -/
def fts_search (storeSearch : String → Except DBError (List RecipesModel))
    (query : String) : Except DBError (List RecipesModel) :=
  match storeSearch query with
  | .ok rs => .ok rs
  | .error e => .error e

/-- Schema `UpdateRecipeSchema` from `schemas.py`: every field optional, `none` is
the "leave unchanged" sentinel. -/
structure UpdateRecipeSchema where
  title : Option String := none
  instruction : Option String := none
  cooking_time : Option Int := none
  cooking_difficulty : Option CookingDifficultEnum := none
  kitchen_name : Option String := none
  ingredient_names : Option (List String) := none
deriving DecidableEq, Repr

/-- The ingredient-name resolution loop of `update_recipe`: for each name in
order, select the first ingredient with that name (`sess.scalar`), failing
with 404 on the first unresolvable name; on success one fresh association row
per name, with generated primary keys starting at `next`. -/
def resolveAssocs (db : DB) (rid : Nat) : Nat → List String →
    Except DBError (List RecipeIngredientsModel)
  | _, [] => .ok []
  | next, n :: rest =>
    match db.ingredients.find? (fun i => i.name == n) with
    | none => .error (.notFound ("Ingredient " ++ n ++ " not found"))
    | some ing =>
      match resolveAssocs db rid (next + 1) rest with
      | .error e => .error e
      | .ok l => .ok ({ id := next, recipe_id := rid, ingredient_id := ing.id } :: l)

/-- The `ingredient_names` branch of `update_recipe` followed by the commit of
the recipe row `recipe2` (the fetched recipe with the scalar fields and the
kitchen reference already applied): if `ingredient_names` is not `None`,
delete all association rows of the recipe and insert one fresh row per
resolved name. -/
def updateAssocsStep (db : DB) (rid : Nat) (u : UpdateRecipeSchema)
    (recipe2 : RecipesModel) : Except DBError (DB × RecipesModel) :=
  let recipes2 := db.recipes.map (fun r => if r.id == rid then recipe2 else r)
  match u.ingredient_names with
  | none => .ok ({ db with recipes := recipes2 }, recipe2)
  | some names =>
    match resolveAssocs db rid db.nextAssocId names with
    | .error e => .error e
    | .ok newAssocs =>
        .ok ({ db with recipes := recipes2,
                       assocs := db.assocs.filter (fun a => a.recipe_id != rid)
                                 ++ newAssocs,
                       nextAssocId := db.nextAssocId + newAssocs.length },
             recipe2)

/-- The transaction body of `RecipeDBManager.update_recipe`, run on the
uncommitted working state: fetch-or-404, overwrite each non-`None` scalar
field, resolve `kitchen_name` (404 if absent), and hand over to
`updateAssocsStep` (404 on the first unresolvable ingredient name). -/
def update_recipe_work (db : DB) (rid : Nat) (u : UpdateRecipeSchema) :
    Except DBError (DB × RecipesModel) :=
  match db.recipes.find? (fun r => r.id == rid) with
  | none => .error (.notFound "Recipe not found")
  | some recipe0 =>
    let recipe1 : RecipesModel :=
      { recipe0 with
        title := u.title.getD recipe0.title,
        instruction := u.instruction.getD recipe0.instruction,
        cooking_time := u.cooking_time.getD recipe0.cooking_time,
        cooking_difficulty := u.cooking_difficulty.getD recipe0.cooking_difficulty }
    match u.kitchen_name with
    | some kn =>
      (match db.kitchens.find? (fun k => k.name == kn) with
       | none => .error (.notFound "Kitchen not found")
       | some kitchen =>
          updateAssocsStep db rid u { recipe1 with kitchen_id := kitchen.id })
    | none => updateAssocsStep db rid u recipe1

/-- Method `RecipeDBManager.update_recipe`: the transaction body followed by
commit-or-rollback — `async with self.session()` commits only on the success
path, and an exception closes the session with the transaction rolled back,
so the caller observes the pre-operation store. -/
def update_recipe (db : DB) (rid : Nat) (u : UpdateRecipeSchema) :
    DB × Except DBError RecipesModel :=
  match update_recipe_work db rid u with
  | .ok (db2, r) => (db2, .ok r)
  | .error e => (db, .error e)

/-! ## Concrete fixtures used by witnesses and counterexamples -/

/-- A concrete recipe row used in the fixture store. -/
def tacoRow : RecipesModel :=
  { id := 1, title := "Taco", instruction := "Cook",
    cooking_time := 15, cooking_difficulty := .EASY, kitchen_id := 1 }

/-- A small concrete store: two kitchens, two ingredients, one recipe (Taco,
kitchen Mexican) associated with Avocado. -/
def dbA : DB :=
  { kitchens := [{ id := 1, name := "Mexican" }, { id := 2, name := "Spanish" }],
    ingredients := [{ id := 1, name := "Avocado" }, { id := 2, name := "Tomato" }],
    recipes := [tacoRow],
    assocs := [{ id := 1, recipe_id := 1, ingredient_id := 1 }],
    nextRecipeId := 2, nextAssocId := 2 }

/-! ## Helper lemmas -/

/-- Filtering for `f a == rid` after filtering for `f a != rid` yields nothing. -/
theorem filter_beq_of_filter_bne {α : Type} (l : List α) (f : α → Nat) (rid : Nat) :
    (l.filter (fun a => f a != rid)).filter (fun a => f a == rid) = [] := by
  rw [List.filter_eq_nil_iff]
  intro a ha
  rcases List.mem_filter.mp ha with ⟨_, hne⟩
  simpa using bne_iff_ne.mp hne

/-- Success shape of `updateAssocsStep`: the returned recipe is exactly the
`recipe2` handed over; when `ingredient_names` is absent the association table
is untouched; when it is present the association table becomes the old rows
of other recipes followed by the freshly resolved rows. -/
theorem updateAssocsStep_ok (db : DB) (rid : Nat) (u : UpdateRecipeSchema)
    (recipe2 : RecipesModel) (db2 : DB) (r2 : RecipesModel)
    (h : updateAssocsStep db rid u recipe2 = .ok (db2, r2)) :
    r2 = recipe2
    ∧ (u.ingredient_names = none → db2.assocs = db.assocs)
    ∧ (∀ names l, u.ingredient_names = some names →
        resolveAssocs db rid db.nextAssocId names = .ok l →
        db2.assocs = db.assocs.filter (fun a => a.recipe_id != rid) ++ l) := by
  unfold updateAssocsStep at h
  cases hin : u.ingredient_names with
  | none =>
    rw [hin] at h
    simp only [Except.ok.injEq, Prod.mk.injEq] at h
    refine ⟨h.2.symm, fun _ => by rw [← h.1], fun names l hc => ?_⟩
    cases hc
  | some names0 =>
    rw [hin] at h
    simp only [] at h
    cases hres : resolveAssocs db rid db.nextAssocId names0 with
    | error e => rw [hres] at h; cases h
    | ok l0 =>
      rw [hres] at h
      simp only [Except.ok.injEq, Prod.mk.injEq] at h
      refine ⟨h.2.symm, fun hc => Option.noConfusion hc, fun names l hc hres2 => ?_⟩
      injection hc with hceq
      subst hceq
      rw [hres] at hres2
      injection hres2 with hleq
      subst hleq
      rw [← h.1]

/-- Success shape of the `update_recipe` transaction body relative to the
fetched recipe `r0`: each scalar field of the result is the requested value
when supplied and the old value when absent; an absent `kitchen_name` leaves
the kitchen reference; an absent `ingredient_names` leaves the association
table; a present `ingredient_names` replaces the recipe's rows wholesale. -/
theorem update_recipe_work_ok (db : DB) (rid : Nat) (u : UpdateRecipeSchema)
    (r0 : RecipesModel) (db2 : DB) (r2 : RecipesModel)
    (hfind : db.recipes.find? (fun r => r.id == rid) = some r0)
    (h : update_recipe_work db rid u = .ok (db2, r2)) :
    r2.title = u.title.getD r0.title
    ∧ r2.instruction = u.instruction.getD r0.instruction
    ∧ r2.cooking_time = u.cooking_time.getD r0.cooking_time
    ∧ r2.cooking_difficulty = u.cooking_difficulty.getD r0.cooking_difficulty
    ∧ (u.kitchen_name = none → r2.kitchen_id = r0.kitchen_id)
    ∧ (u.ingredient_names = none → db2.assocs = db.assocs)
    ∧ (∀ names l, u.ingredient_names = some names →
        resolveAssocs db rid db.nextAssocId names = .ok l →
        db2.assocs = db.assocs.filter (fun a => a.recipe_id != rid) ++ l) := by
  unfold update_recipe_work at h
  rw [hfind] at h
  simp only [] at h
  cases hkn : u.kitchen_name with
  | none =>
    rw [hkn] at h
    simp only [] at h
    obtain ⟨hr2, hnoneA, hsomeA⟩ := updateAssocsStep_ok db rid u _ db2 r2 h
    subst hr2
    exact ⟨rfl, rfl, rfl, rfl, fun _ => rfl, hnoneA, hsomeA⟩
  | some kn =>
    rw [hkn] at h
    simp only [] at h
    cases hk : db.kitchens.find? (fun k => k.name == kn) with
    | none => rw [hk] at h; cases h
    | some kitchen =>
      rw [hk] at h
      simp only [] at h
      obtain ⟨hr2, hnoneA, hsomeA⟩ := updateAssocsStep_ok db rid u _ db2 r2 h
      subst hr2
      exact ⟨rfl, rfl, rfl, rfl, fun hc => Option.noConfusion hc, hnoneA, hsomeA⟩

/-! ## Claim theorems -/

/-- C2: every `update_recipe` call that fails with a `NotFoundError`
mid-operation (unresolvable `kitchen_name`, or an unresolvable ingredient name
after the old associations were deleted) leaves the store in the
pre-operation state: the recipe's fields and its full association set are
unchanged, with no partial application observable. -/
theorem update_recipe_rollback_on_notFound (db : DB) (rid : Nat)
    (u : UpdateRecipeSchema) (d : String)
    (h : (update_recipe db rid u).2 = .error (.notFound d)) :
    (update_recipe db rid u).1 = db := by
  unfold update_recipe at h ⊢
  cases hw : update_recipe_work db rid u with
  | ok p => rw [hw] at h; cases h
  | error e => rfl

/-- Witness for C2: updating recipe 1 of `dbA` with the unresolvable kitchen
name French fails with 404 and leaves the store equal to `dbA`. -/
theorem update_recipe_rollback_witness :
    (update_recipe dbA 1 { kitchen_name := some "French" }).2
      = .error (.notFound "Kitchen not found")
    ∧ (update_recipe dbA 1 { kitchen_name := some "French" }).1 = dbA :=
  ⟨rfl, update_recipe_rollback_on_notFound dbA 1 { kitchen_name := some "French" }
    "Kitchen not found" rfl⟩

/-- C7: deleting an existing recipe succeeds, after which `get_recipe_by_id`
yields the 404 error and no association row referencing the recipe remains;
deleting a non-existent id yields the 404 error with no effect on the store. -/
theorem delete_recipe_spec (db : DB) (rid : Nat) :
    (∀ r, get_recipe_by_id db rid = .ok r →
        (delete_recipe db rid).2 = .ok ()
        ∧ get_recipe_by_id (delete_recipe db rid).1 rid
            = .error (.notFound "Recipe not found")
        ∧ assocsOf (delete_recipe db rid).1 rid = [])
    ∧ (∀ d, get_recipe_by_id db rid = .error (.notFound d) →
        delete_recipe db rid = (db, .error (.notFound d))) := by
  constructor
  · intro r h
    unfold delete_recipe
    rw [h]
    refine ⟨rfl, ?_, ?_⟩
    · show get_recipe_by_id { db with recipes := _, assocs := _ } rid = _
      unfold get_recipe_by_id
      have hnone : (db.recipes.filter (fun x => x.id != rid)).find?
          (fun x => x.id == rid) = none := by
        rw [List.find?_eq_none]
        intro x hx
        rcases List.mem_filter.mp hx with ⟨_, hne⟩
        simpa using bne_iff_ne.mp hne
      simp only [hnone]
    · show assocsOf { db with recipes := _, assocs := _ } rid = []
      unfold assocsOf
      exact filter_beq_of_filter_bne db.assocs (fun a => a.recipe_id) rid
  · intro d h
    unfold delete_recipe
    rw [h]

/-- Witness for C7: deleting recipe 1 of `dbA` succeeds, the recipe is gone
and so are its association rows; deleting the absent id 9 is a 404 no-op. -/
theorem delete_recipe_witness :
    ((delete_recipe dbA 1).2 = .ok ()
      ∧ get_recipe_by_id (delete_recipe dbA 1).1 1
          = .error (.notFound "Recipe not found")
      ∧ assocsOf (delete_recipe dbA 1).1 1 = [])
    ∧ delete_recipe dbA 9 = (dbA, .error (.notFound "Recipe not found")) :=
  ⟨(delete_recipe_spec dbA 1).1 tacoRow rfl,
   (delete_recipe_spec dbA 9).2 "Recipe not found" rfl⟩

/-- C8: whenever the store rejects the text-search query, `fts_search`
returns exactly that typed `searchError` to its caller — it neither swallows
the store's failure nor returns a success value. -/
theorem fts_search_surfaces_SearchError
    (storeSearch : String → Except DBError (List RecipesModel))
    (q m : String) (h : storeSearch q = .error (.searchError m)) :
    fts_search storeSearch q = .error (.searchError m)
    ∧ ∀ rs, fts_search storeSearch q ≠ .ok rs := by
  unfold fts_search
  rw [h]
  exact ⟨rfl, fun rs hc => by cases hc⟩

/-- Witness for C8: a store that rejects every query makes `fts_search`
return the same typed search error. -/
theorem fts_search_witness :
    fts_search (fun _ => .error (.searchError "tsquery syntax error"))
        "cake AND AND" = .error (.searchError "tsquery syntax error") :=
  (fts_search_surfaces_SearchError (fun _ => .error (.searchError "tsquery syntax error"))
    "cake AND AND" "tsquery syntax error" rfl).1

/-- C10: an update whose `ingredient_names` is the explicit empty list (not
the `None` sentinel) succeeds on an existing recipe, deletes all of its
association rows and inserts none, leaving an empty association set. -/
theorem update_recipe_empty_ingredient_names (db : DB) (rid : Nat)
    (r0 : RecipesModel) (h : db.recipes.find? (fun r => r.id == rid) = some r0) :
    (update_recipe db rid { ingredient_names := some [] }).2 = .ok r0
    ∧ (update_recipe db rid { ingredient_names := some [] }).1.assocs
        = db.assocs.filter (fun a => a.recipe_id != rid)
    ∧ assocsOf (update_recipe db rid { ingredient_names := some [] }).1 rid = [] := by
  unfold update_recipe update_recipe_work updateAssocsStep resolveAssocs
  rw [h]
  refine ⟨rfl, by simp, ?_⟩
  show assocsOf { db with recipes := _, assocs := _, nextAssocId := _ } rid = []
  unfold assocsOf
  simp only [List.append_nil]
  exact filter_beq_of_filter_bne db.assocs (fun a => a.recipe_id) rid

/-- Witness for C10: updating recipe 1 of `dbA` (linked to Avocado) with the
explicit empty ingredient list succeeds and leaves it with no associations. -/
theorem update_recipe_empty_ingredient_names_witness :
    (update_recipe dbA 1 { ingredient_names := some [] }).2 = .ok tacoRow
    ∧ assocsOf (update_recipe dbA 1 { ingredient_names := some [] }).1 1 = [] :=
  have h := update_recipe_empty_ingredient_names dbA 1 tacoRow rfl
  ⟨h.1, h.2.2⟩

/-- C5: with a non-empty exclude list the result is the include-filtered
candidate set minus every recipe associated with any excluded name (the two
conditions conjoined, exclusion applied after inclusion); no recipe of the
result is associated with an excluded name; with both filters empty or
absent, all recipes are returned. -/
theorem filter_exclude_semantics (db : DB) (incOpt : Option (List String))
    (exc : List String) (hexc : exc ≠ []) :
    filter_recipes_by_ingredients db incOpt (some exc)
      = (filter_recipes_by_ingredients db incOpt none).filter
          (fun r => !(excludedBy db r.id exc))
    ∧ (∀ r ∈ filter_recipes_by_ingredients db incOpt (some exc),
        ∀ n ∈ exc, ¬ ∃ p ∈ joinedRows db, p.1.recipe_id = r.id ∧ p.2.name = n)
    ∧ filter_recipes_by_ingredients db none none = db.recipes
    ∧ filter_recipes_by_ingredients db (some []) (some []) = db.recipes := by
  cases exc with
  | nil => exact absurd rfl hexc
  | cons e es =>
    refine ⟨rfl, ?_, rfl, rfl⟩
    intro r hr n hn hex
    obtain ⟨p, hp, hrid, hname⟩ := hex
    have hmem := List.mem_filter.mp hr
    have hfalse : excludedBy db r.id (e :: es) = false := by
      simpa using hmem.2
    unfold excludedBy at hfalse
    rw [List.any_eq_false] at hfalse
    apply hfalse p hp
    simp [hrid, hname, hn]

/-- Witness for C5: on `dbA`, excluding Avocado removes the Taco recipe from
the unfiltered candidate set, and the empty filters return all recipes. -/
theorem filter_exclude_semantics_witness :
    filter_recipes_by_ingredients dbA none (some ["Avocado"])
      = (filter_recipes_by_ingredients dbA none none).filter
          (fun r => !(excludedBy dbA r.id ["Avocado"]))
    ∧ filter_recipes_by_ingredients dbA none none = dbA.recipes :=
  have h := filter_exclude_semantics dbA none ["Avocado"] (by simp)
  ⟨h.1, h.2.2.1⟩

/-- C4: in a partial update, each of title, instruction, cooking_time and
cooking_difficulty is overwritten iff the request supplies a non-null value
(an explicit empty or zero value still applies; only the absent sentinel
means no change — this is what `Option.getD` states), and anything not
supplied keeps its pre-update value, including the kitchen reference when
`kitchen_name` is absent and the association table when `ingredient_names`
is absent. -/
theorem update_recipe_frame (db : DB) (rid : Nat) (u : UpdateRecipeSchema)
    (r0 : RecipesModel) (db2 : DB) (r2 : RecipesModel)
    (hfind : db.recipes.find? (fun r => r.id == rid) = some r0)
    (hrun : update_recipe db rid u = (db2, .ok r2)) :
    r2.title = u.title.getD r0.title
    ∧ r2.instruction = u.instruction.getD r0.instruction
    ∧ r2.cooking_time = u.cooking_time.getD r0.cooking_time
    ∧ r2.cooking_difficulty = u.cooking_difficulty.getD r0.cooking_difficulty
    ∧ (u.kitchen_name = none → r2.kitchen_id = r0.kitchen_id)
    ∧ (u.ingredient_names = none → db2.assocs = db.assocs) := by
  unfold update_recipe at hrun
  cases hw : update_recipe_work db rid u with
  | error e => rw [hw] at hrun; simp at hrun
  | ok p =>
    obtain ⟨dbw, rw2⟩ := p
    rw [hw] at hrun
    simp only [Prod.mk.injEq, Except.ok.injEq] at hrun
    obtain ⟨hdb, hr⟩ := hrun
    subst hdb
    subst hr
    obtain ⟨h1, h2, h3, h4, h5, h6, _⟩ :=
      update_recipe_work_ok db rid u r0 dbw rw2 hfind hw
    exact ⟨h1, h2, h3, h4, h5, h6⟩

/-- The update request that only changes the title, used in the C4 witness. -/
def titleOnlyUpd : UpdateRecipeSchema := { title := some "Burrito" }

/-- The recipe row Taco after the title-only update. -/
def tacoBurrito : RecipesModel := { tacoRow with title := "Burrito" }

/-- Witness for C4: a title-only update of recipe 1 in `dbA` sets the title
to the supplied value, keeps the other scalar fields, the kitchen reference
and the association table at their pre-update values. -/
theorem update_recipe_frame_witness :
    tacoBurrito.title = titleOnlyUpd.title.getD tacoRow.title
    ∧ tacoBurrito.instruction = titleOnlyUpd.instruction.getD tacoRow.instruction
    ∧ tacoBurrito.cooking_time = titleOnlyUpd.cooking_time.getD tacoRow.cooking_time
    ∧ tacoBurrito.cooking_difficulty
        = titleOnlyUpd.cooking_difficulty.getD tacoRow.cooking_difficulty
    ∧ (titleOnlyUpd.kitchen_name = none → tacoBurrito.kitchen_id = tacoRow.kitchen_id)
    ∧ (titleOnlyUpd.ingredient_names = none →
        ({ dbA with recipes := [tacoBurrito] } : DB).assocs = dbA.assocs) :=
  update_recipe_frame dbA 1 titleOnlyUpd tacoRow
    { dbA with recipes := [tacoBurrito] } tacoBurrito rfl rfl

/-- Success shape of the name-resolution loop of `update_recipe`: every
produced association row targets the updated recipe and carries a fresh id at
or above the starting generator value; the rows list one resolved ingredient
per requested name, in request order. -/
theorem resolveAssocs_ok (db : DB) (rid : Nat) :
    ∀ (next : Nat) (names : List String) (l : List RecipeIngredientsModel),
    resolveAssocs db rid next names = .ok l →
    (∀ a ∈ l, a.recipe_id = rid ∧ next ≤ a.id)
    ∧ l.map (fun a => a.ingredient_id)
        = names.map (fun n =>
            ((db.ingredients.find? (fun i => i.name == n)).map (fun i => i.id)).getD 0)
    ∧ l.length = names.length := by
  intro next names
  induction names generalizing next with
  | nil =>
    intro l h
    unfold resolveAssocs at h
    injection h with hl
    subst hl
    simp
  | cons n rest ih =>
    intro l h
    unfold resolveAssocs at h
    cases hf : db.ingredients.find? (fun i => i.name == n) with
    | none => rw [hf] at h; cases h
    | some ing =>
      rw [hf] at h
      simp only [] at h
      cases hres : resolveAssocs db rid (next + 1) rest with
      | error e => rw [hres] at h; cases h
      | ok l0 =>
        rw [hres] at h
        injection h with hl
        subst hl
        obtain ⟨hmem, hmap, hlen⟩ := ih (next + 1) l0 hres
        refine ⟨?_, ?_, ?_⟩
        · intro a ha
          cases ha with
          | head => exact ⟨rfl, Nat.le_refl next⟩
          | tail _ ha0 =>
            obtain ⟨ha1, ha2⟩ := hmem a ha0
            exact ⟨ha1, Nat.le_of_succ_le ha2⟩
        · simp [hf, hmap]
        · simp [hlen]

/-- C3: when `ingredient_names` is present and every name resolves, a
successful update leaves the recipe associated with exactly one fresh row per
requested name (delete-all-then-insert): the resulting association rows of
the recipe are precisely the freshly resolved ones, in request order, and no
pre-update association row of the recipe survives. -/
theorem update_recipe_replaces_associations (db : DB) (rid : Nat)
    (u : UpdateRecipeSchema) (names : List String) (db2 : DB)
    (r2 : RecipesModel) (newAssocs : List RecipeIngredientsModel)
    (hwf : ∀ a ∈ db.assocs, a.id < db.nextAssocId)
    (hnames : u.ingredient_names = some names)
    (hres : resolveAssocs db rid db.nextAssocId names = .ok newAssocs)
    (hrun : update_recipe db rid u = (db2, .ok r2)) :
    assocsOf db2 rid = newAssocs
    ∧ newAssocs.map (fun a => a.ingredient_id)
        = names.map (fun n =>
            ((db.ingredients.find? (fun i => i.name == n)).map (fun i => i.id)).getD 0)
    ∧ newAssocs.length = names.length
    ∧ ∀ a ∈ assocsOf db rid, a ∉ assocsOf db2 rid := by
  obtain ⟨hmem, hmap, hlen⟩ := resolveAssocs_ok db rid db.nextAssocId names newAssocs hres
  unfold update_recipe at hrun
  cases hw : update_recipe_work db rid u with
  | error e => rw [hw] at hrun; simp at hrun
  | ok p =>
    obtain ⟨dbw, rw2⟩ := p
    rw [hw] at hrun
    simp only [Prod.mk.injEq, Except.ok.injEq] at hrun
    obtain ⟨hdb, hr⟩ := hrun
    subst hdb
    subst hr
    cases hfind : db.recipes.find? (fun r => r.id == rid) with
    | none =>
      unfold update_recipe_work at hw
      rw [hfind] at hw
      cases hw
    | some r0 =>
      obtain ⟨_, _, _, _, _, _, hrepl⟩ :=
        update_recipe_work_ok db rid u r0 dbw rw2 hfind hw
      have hassoc := hrepl names newAssocs hnames hres
      have hOf : assocsOf dbw rid = newAssocs := by
        unfold assocsOf
        rw [hassoc, List.filter_append,
          filter_beq_of_filter_bne db.assocs (fun a => a.recipe_id) rid,
          List.nil_append]
        apply List.filter_eq_self.mpr
        intro a ha
        simp [(hmem a ha).1]
      refine ⟨hOf, hmap, hlen, ?_⟩
      intro a ha hc
      rw [hOf] at hc
      have hlt : a.id < db.nextAssocId := hwf a (List.mem_filter.mp ha).1
      have hge : db.nextAssocId ≤ a.id := (hmem a hc).2
      exact absurd hlt (Nat.not_lt.mpr hge)

/-- The update request replacing the ingredient list by Tomato, used in the
C3 witness. -/
def tomatoUpd : UpdateRecipeSchema := { ingredient_names := some ["Tomato"] }

/-- The store after the C3 witness update: recipe 1, previously associated
with Avocado, is now associated with exactly one fresh row to Tomato. -/
def dbTomato : DB :=
  { dbA with recipes := [tacoRow],
             assocs := [{ id := 2, recipe_id := 1, ingredient_id := 2 }],
             nextAssocId := 3 }

/-- Witness for C3: updating recipe 1 of `dbA` (associated with Avocado) with
ingredient_names Tomato leaves it associated with exactly the one fresh
Tomato row, and its old Avocado row does not survive. -/
theorem update_recipe_replaces_associations_witness :
    assocsOf dbTomato 1 = [{ id := 2, recipe_id := 1, ingredient_id := 2 }]
    ∧ ([{ id := 2, recipe_id := 1, ingredient_id := 2 }]
          : List RecipeIngredientsModel).map (fun a => a.ingredient_id)
        = (["Tomato"]).map (fun n =>
            ((dbA.ingredients.find? (fun i => i.name == n)).map (fun i => i.id)).getD 0)
    ∧ ([{ id := 2, recipe_id := 1, ingredient_id := 2 }]
          : List RecipeIngredientsModel).length = (["Tomato"]).length
    ∧ ∀ a ∈ assocsOf dbA 1, a ∉ assocsOf dbTomato 1 :=
  update_recipe_replaces_associations dbA 1 tomatoUpd ["Tomato"] dbTomato tacoRow
    [{ id := 2, recipe_id := 1, ingredient_id := 2 }]
    (by decide) rfl rfl rfl

/-- The first ingredient id of the list that resolves to no ingredient row,
in list order — the id that the validation loop of `create_recipe` names in
its 404 detail. -/
def firstMissing (db : DB) : List Nat → Option Nat
  | [] => none
  | i :: rest =>
    if (db.ingredients.find? (fun g => g.id == i)).isNone then some i
    else firstMissing db rest

/-- The validation loop succeeds returning the ids unchanged when no id is
missing, and fails naming the first missing id otherwise. -/
theorem validateIngredients_spec (db : DB) : ∀ ids : List Nat,
    (firstMissing db ids = none → validateIngredients db ids = .ok ids)
    ∧ (∀ i, firstMissing db ids = some i →
        validateIngredients db ids
          = .error (.notFound ("Ingredient with id=" ++ toString i ++ " not found"))) := by
  intro ids
  induction ids with
  | nil => exact ⟨fun _ => rfl, fun i hc => Option.noConfusion hc⟩
  | cons j rest ih =>
    cases hf : db.ingredients.find? (fun g => g.id == j) with
    | none =>
      constructor
      · intro hc
        unfold firstMissing at hc
        rw [hf] at hc
        cases hc
      · intro i hi
        unfold firstMissing at hi
        rw [hf] at hi
        simp only [Option.isNone_none, if_pos] at hi
        injection hi with hij
        subst hij
        unfold validateIngredients
        rw [hf]
    | some g =>
      constructor
      · intro h0
        unfold firstMissing at h0
        rw [hf] at h0
        simp only [Option.isNone_some, Bool.false_eq_true, if_false] at h0
        unfold validateIngredients
        rw [hf, ih.1 h0]
      · intro i hi
        unfold firstMissing at hi
        rw [hf] at hi
        simp only [Option.isNone_some, Bool.false_eq_true, if_false] at hi
        unfold validateIngredients
        rw [hf, ih.2 i hi]

/-- Every freshly built association row targets the new recipe, and the rows
list the validated ingredient ids in order. -/
theorem mkAssocs_spec (rid : Nat) : ∀ (next : Nat) (ids : List Nat),
    (∀ a ∈ mkAssocs rid next ids, a.recipe_id = rid)
    ∧ (mkAssocs rid next ids).map (fun a => a.ingredient_id) = ids := by
  intro next ids
  induction ids generalizing next with
  | nil => exact ⟨fun a ha => absurd ha (List.not_mem_nil a), rfl⟩
  | cons j rest ih =>
    refine ⟨?_, ?_⟩
    · intro a ha
      cases ha with
      | head => rfl
      | tail _ ha0 => exact (ih (next + 1)).1 a ha0
    · show (({ id := next, recipe_id := rid, ingredient_id := j }
          : RecipeIngredientsModel) :: mkAssocs rid (next + 1) rest).map
            (fun a => a.ingredient_id) = j :: rest
      rw [List.map_cons, (ih (next + 1)).2]

/-- C6: `create_recipe` validates the kitchen id first, then each ingredient
id in list order, failing with the 404 naming the first missing id; on any
failure nothing is persisted (the store is the pre-operation one, with no
recipe row and no orphan association row); on success the recipe and one
association row per requested ingredient id are persisted in one step and
the recipe is returned carrying the generated identifier. -/
theorem create_recipe_spec (db : DB) (rc : CreateRecipeSchema)
    (hwf : ∀ a ∈ db.assocs, a.recipe_id ≠ db.nextRecipeId) :
    (db.kitchens.find? (fun k => k.id == rc.kitchen_id) = none →
        create_recipe db rc = (db, .error (.notFound "Kitchen not found")))
    ∧ (∀ k, db.kitchens.find? (fun k => k.id == rc.kitchen_id) = some k →
        ∀ i, firstMissing db rc.recipe_ingredients = some i →
          create_recipe db rc
            = (db, .error (.notFound ("Ingredient with id=" ++ toString i ++ " not found"))))
    ∧ (∀ e, (create_recipe db rc).2 = .error e → (create_recipe db rc).1 = db)
    ∧ (∀ db2 r, create_recipe db rc = (db2, .ok r) →
        r.id = db.nextRecipeId
        ∧ db2.recipes = db.recipes ++ [r]
        ∧ (assocsOf db2 r.id).map (fun a => a.ingredient_id) = rc.recipe_ingredients) := by
  cases hk : db.kitchens.find? (fun k => k.id == rc.kitchen_id) with
  | none =>
    refine ⟨fun _ => ?_, fun k hk2 => ?_, fun e he => ?_, fun db2 r hrun => ?_⟩
    · unfold create_recipe
      rw [hk]
    · exact Option.noConfusion hk2
    · unfold create_recipe
      rw [hk]
    · unfold create_recipe at hrun
      rw [hk] at hrun
      simp at hrun
  | some k0 =>
    refine ⟨fun hc => Option.noConfusion hc, fun k hk2 i hi => ?_,
            fun e he => ?_, fun db2 r hrun => ?_⟩
    · unfold create_recipe
      rw [hk, (validateIngredients_spec db rc.recipe_ingredients).2 i hi]
    · unfold create_recipe at he ⊢
      rw [hk] at he ⊢
      simp only [] at he ⊢
      cases hv : validateIngredients db rc.recipe_ingredients with
      | error e0 => rfl
      | ok ids => rw [hv] at he; simp at he
    · unfold create_recipe at hrun
      rw [hk] at hrun
      simp only [] at hrun
      cases hv : validateIngredients db rc.recipe_ingredients with
      | error e0 => rw [hv] at hrun; simp at hrun
      | ok ids =>
        rw [hv] at hrun
        simp only [Prod.mk.injEq, Except.ok.injEq] at hrun
        obtain ⟨hdb, hr⟩ := hrun
        have hids : ids = rc.recipe_ingredients := by
          cases hfm : firstMissing db rc.recipe_ingredients with
          | none =>
            have := (validateIngredients_spec db rc.recipe_ingredients).1 hfm
            rw [hv] at this
            injection this
          | some i =>
            have := (validateIngredients_spec db rc.recipe_ingredients).2 i hfm
            rw [hv] at this
            cases this
        subst hids
        subst hdb
        subst hr
        refine ⟨rfl, rfl, ?_⟩
        unfold assocsOf
        show (List.filter _ (db.assocs ++ mkAssocs db.nextRecipeId db.nextAssocId
          rc.recipe_ingredients)).map (fun a => a.ingredient_id) = rc.recipe_ingredients
        rw [List.filter_append]
        have h1 : db.assocs.filter
            (fun a => a.recipe_id == db.nextRecipeId) = [] := by
          rw [List.filter_eq_nil_iff]
          intro a ha
          simpa using hwf a ha
        have h2 : (mkAssocs db.nextRecipeId db.nextAssocId
            rc.recipe_ingredients).filter (fun a => a.recipe_id == db.nextRecipeId)
            = mkAssocs db.nextRecipeId db.nextAssocId rc.recipe_ingredients := by
          apply List.filter_eq_self.mpr
          intro a ha
          simp [(mkAssocs_spec db.nextRecipeId db.nextAssocId rc.recipe_ingredients).1 a ha]
        rw [h1, h2, List.nil_append,
          (mkAssocs_spec db.nextRecipeId db.nextAssocId rc.recipe_ingredients).2]

/-- The create request used in the C6 witness: Stir Fry with both fixture
ingredients in kitchen 1. -/
def stirFryRC : CreateRecipeSchema :=
  { title := "Stir Fry", instruction := "Fry", recipe_ingredients := [1, 2],
    cooking_time := 10, cooking_difficulty := .EASY, kitchen_id := 1 }

/-- The recipe row generated by the C6 witness create. -/
def stirFryRow : RecipesModel :=
  { id := 2, title := "Stir Fry", instruction := "Fry", cooking_time := 10,
    cooking_difficulty := .EASY, kitchen_id := 1 }

/-- The store after the C6 witness create. -/
def dbStirFry : DB :=
  { dbA with recipes := [tacoRow, stirFryRow],
             assocs := [{ id := 1, recipe_id := 1, ingredient_id := 1 },
                        { id := 2, recipe_id := 2, ingredient_id := 1 },
                        { id := 3, recipe_id := 2, ingredient_id := 2 }],
             nextRecipeId := 3, nextAssocId := 4 }

/-- Witness for C6: creating Stir Fry in `dbA` persists the recipe with the
generated id 2 and one association row per requested ingredient id, while
creating into the absent kitchen 9 fails with the kitchen 404 and leaves the
store untouched. -/
theorem create_recipe_spec_witness :
    (stirFryRow.id = dbA.nextRecipeId
      ∧ dbStirFry.recipes = dbA.recipes ++ [stirFryRow]
      ∧ (assocsOf dbStirFry stirFryRow.id).map (fun a => a.ingredient_id)
          = stirFryRC.recipe_ingredients)
    ∧ create_recipe dbA { stirFryRC with kitchen_id := 9 }
        = (dbA, .error (.notFound "Kitchen not found")) :=
  ⟨(create_recipe_spec dbA stirFryRC (by decide)).2.2.2 dbStirFry stirFryRow rfl,
   (create_recipe_spec dbA { stirFryRC with kitchen_id := 9 } (by decide)).1 rfl⟩

/-- The include semantics as claim C1 words them, for refinement comparison
with `filter_recipes_by_ingredients`: keep exactly the recipes whose distinct
associated-ingredient-name set is a superset of the include set, the names of
`inc` deduplicated before the comparison. -/
def includeFilterSpec (db : DB) (inc : List String) : List RecipesModel :=
  db.recipes.filter (fun r => inc.dedup.all (fun n => (assocNames db r.id).contains n))

/-- Counterexample to C1 as stated: on `dbA`, whose only recipe is associated
with exactly Avocado, the include list with the duplicated name Avocado
returns the recipe under the claimed (deduplicating, superset) semantics but
the empty list under the code, whose `HAVING COUNT(...) == len(include)`
compares the raw row count 1 against the undeduplicated length 2. -/
theorem filter_include_dedup_counterexample :
    filter_recipes_by_ingredients dbA (some ["Avocado", "Avocado"]) none = []
    ∧ includeFilterSpec dbA ["Avocado", "Avocado"] = [tacoRow]
    ∧ filter_recipes_by_ingredients dbA (some ["Avocado", "Avocado"]) none
        ≠ includeFilterSpec dbA ["Avocado", "Avocado"] := by
  refine ⟨by decide, by decide, ?_⟩
  intro hc
  have h1 : filter_recipes_by_ingredients dbA (some ["Avocado", "Avocado"]) none
      = [] := by decide
  have h2 : includeFilterSpec dbA ["Avocado", "Avocado"] = [tacoRow] := by decide
  rw [h1, h2] at hc
  cases hc

/-- Every matched name of a recipe is in the include list. -/
theorem matchedNames_subset_inc (db : DB) (rid : Nat) (inc : List String) :
    ∀ n ∈ matchedNames db rid inc, n ∈ inc := by
  intro n hn
  obtain ⟨p, hp, hpe⟩ := List.mem_map.mp hn
  have hcond := (List.mem_filter.mp hp).2
  rw [Bool.and_eq_true] at hcond
  rw [← hpe]
  simpa using hcond.2

/-- Every matched name of a recipe is one of its associated names. -/
theorem matchedNames_subset_assocNames (db : DB) (rid : Nat) (inc : List String) :
    ∀ n ∈ matchedNames db rid inc, n ∈ assocNames db rid := by
  intro n hn
  obtain ⟨p, hp, hpe⟩ := List.mem_map.mp hn
  obtain ⟨hpj, hcond⟩ := List.mem_filter.mp hp
  rw [Bool.and_eq_true] at hcond
  exact List.mem_map.mpr ⟨p, List.mem_filter.mpr ⟨hpj, hcond.1⟩, hpe⟩

/-- An associated name that is in the include list is a matched name. -/
theorem mem_matchedNames (db : DB) (rid : Nat) (inc : List String) (n : String)
    (h1 : n ∈ assocNames db rid) (h2 : n ∈ inc) :
    n ∈ matchedNames db rid inc := by
  obtain ⟨p, hp, hpe⟩ := List.mem_map.mp h1
  obtain ⟨hpj, hrid⟩ := List.mem_filter.mp hp
  refine List.mem_map.mpr ⟨p, List.mem_filter.mpr ⟨hpj, ?_⟩, hpe⟩
  rw [Bool.and_eq_true]
  refine ⟨hrid, ?_⟩
  rw [hpe]
  simpa using h2

/-- The matching-row count is the length of the matched-name list. -/
theorem includeCount_eq_length (db : DB) (rid : Nat) (inc : List String) :
    includeCount db rid inc = (matchedNames db rid inc).length :=
  (List.length_map _ _).symm

/-- C1 corrected: for every non-empty include list — duplicated names
included, no deduplication anywhere — the include filter keeps a recipe iff
its count of matching joined association rows (rows, not distinct names)
equals the raw length of the include list as given; only under the additional
premises that the include list has no duplicate names and no two matching
rows of the recipe share a name (one association row per distinct ingredient
name) is this cardinality check equivalent to the recipe's associated-name
set being a superset of the include set. -/
theorem filter_include_semantics (db : DB) (inc : List String)
    (h1 : inc ≠ []) (r : RecipesModel) (hr : r ∈ db.recipes) :
    (r ∈ filter_recipes_by_ingredients db (some inc) none
      ↔ includeCount db r.id inc = inc.length)
    ∧ (inc.Nodup → (matchedNames db r.id inc).Nodup →
        (includeCount db r.id inc = inc.length
          ↔ ∀ n ∈ inc, n ∈ assocNames db r.id)) := by
  constructor
  · cases inc with
    | nil => exact absurd rfl h1
    | cons n ns =>
      show r ∈ db.recipes.filter
          (fun x => includeCount db x.id (n :: ns) == (n :: ns).length) ↔ _
      rw [List.mem_filter]
      constructor
      · intro hm
        simpa using hm.2
      · intro hc
        exact ⟨hr, by simpa using hc⟩
  · intro h2 h3
    rw [includeCount_eq_length]
    constructor
    · intro hlen n hn
      have hsub : (matchedNames db r.id inc).toFinset ⊆ inc.toFinset := by
        intro x hx
        rw [List.mem_toFinset] at hx ⊢
        exact matchedNames_subset_inc db r.id inc x hx
      have hcard : inc.toFinset.card ≤ (matchedNames db r.id inc).toFinset.card := by
        rw [List.toFinset_card_of_nodup h2, List.toFinset_card_of_nodup h3, hlen]
      have heq := Finset.eq_of_subset_of_card_le hsub hcard
      have hnM : n ∈ matchedNames db r.id inc := by
        have hmem : n ∈ (matchedNames db r.id inc).toFinset := by
          rw [heq, List.mem_toFinset]
          exact hn
        exact List.mem_toFinset.mp hmem
      exact matchedNames_subset_assocNames db r.id inc n hnM
    · intro hsup
      have hiff : ∀ n, n ∈ matchedNames db r.id inc ↔ n ∈ inc := fun n =>
        ⟨matchedNames_subset_inc db r.id inc n,
         fun hn => mem_matchedNames db r.id inc n (hsup n hn) hn⟩
      have heq : (matchedNames db r.id inc).toFinset = inc.toFinset := by
        apply Finset.ext
        intro n
        rw [List.mem_toFinset, List.mem_toFinset]
        exact hiff n
      calc (matchedNames db r.id inc).length
          = (matchedNames db r.id inc).toFinset.card :=
            (List.toFinset_card_of_nodup h3).symm
        _ = inc.toFinset.card := by rw [heq]
        _ = inc.length := List.toFinset_card_of_nodup h2

/-- Witness for the amended C1, exercising both regimes: on `dbA`, the
row-count characterization holds at the duplicated include list with two
copies of Avocado (no deduplication: the check compares against raw
length 2), and at the duplicate-free list containing only Avocado the
cardinality check coincides with the superset condition. -/
theorem filter_include_semantics_witness :
    (tacoRow ∈ filter_recipes_by_ingredients dbA (some ["Avocado", "Avocado"]) none
      ↔ includeCount dbA tacoRow.id ["Avocado", "Avocado"]
          = (["Avocado", "Avocado"]).length)
    ∧ (tacoRow ∈ filter_recipes_by_ingredients dbA (some ["Avocado"]) none
      ↔ includeCount dbA tacoRow.id ["Avocado"] = (["Avocado"]).length)
    ∧ (includeCount dbA tacoRow.id ["Avocado"] = (["Avocado"]).length
      ↔ ∀ n ∈ ["Avocado"], n ∈ assocNames dbA tacoRow.id) :=
  ⟨(filter_include_semantics dbA ["Avocado", "Avocado"] (by decide)
      tacoRow (by decide)).1,
   (filter_include_semantics dbA ["Avocado"] (by decide) tacoRow (by decide)).1,
   (filter_include_semantics dbA ["Avocado"] (by decide) tacoRow (by decide)).2
     (by decide) (by decide)⟩

/-- The create request of the C9 scenario, with `cooking_time` omitted. -/
def omittedTimeInput : CreateRecipeInput :=
  { title := "Quiche", instruction := "Bake", recipe_ingredients := [],
    cooking_time := none, cooking_difficulty := none, kitchen_id := 1 }

/-- The schema value pydantic produces for `omittedTimeInput`: the
unvalidated default `cooking_time = 0`. -/
def omittedTimeSchema : CreateRecipeSchema :=
  { title := "Quiche", instruction := "Bake", recipe_ingredients := [],
    cooking_time := 0, cooking_difficulty := .MEDIUM, kitchen_id := 1 }

/-- The recipe row persisted in the C9 scenario, with `cooking_time = 0`. -/
def quicheRow : RecipesModel :=
  { id := 2, title := "Quiche", instruction := "Bake", cooking_time := 0,
    cooking_difficulty := .MEDIUM, kitchen_id := 1 }

/-- C9 is violated by the code: a create request that omits `cooking_time`
passes pydantic validation with the declared default `0` (defaults are not
validated against `gt=0`), `create_recipe` re-checks nothing and persists a
recipe whose `cooking_time` is `0`, not strictly positive — although the same
request with an explicit `cooking_time = 0` is rejected by the `gt=0`
constraint. -/
theorem create_cooking_time_zero_bug :
    CreateRecipeSchema.validate omittedTimeInput = .ok omittedTimeSchema
    ∧ omittedTimeSchema.cooking_time = 0
    ∧ (create_recipe dbA omittedTimeSchema).2 = .ok quicheRow
    ∧ ¬(0 < quicheRow.cooking_time)
    ∧ CreateRecipeSchema.validate { omittedTimeInput with cooking_time := some 0 }
        = .error (.validationError "Input should be greater than 0") := by
  exact ⟨rfl, rfl, rfl, by decide, rfl⟩

end SmartRecipe
